import Mathlib

/-!
Shallow embedding of the Medicare RCM analysis pipeline
(`src/main_script.py`, class `RCMAnalyzer`).

Modelling conventions:
* A claim-line record is embedded after the coercion steps of `clean_data`
  (steps 2–3): the four financial columns are `Option ℚ` (missing = failed
  `pd.to_numeric(..., errors='coerce')`), the two date columns are
  `Option RDate` (missing = failed `pd.to_datetime`).
* Pandas/NumPy missing-value comparison semantics: any comparison with a
  missing operand is `false` (`optLt`).
* Float division by zero yields NaN or a signed infinity in NumPy, never
  an error (warnings are suppressed).  Where a downstream comparison can
  observe the difference — the per-group realization rates consumed by
  `identify_risks` — the quotient is modelled exactly with `FVal`
  (finite / +inf / -inf / NaN, `fdiv`) and compared by the IEEE order
  (`FVal.blt`: NaN compares false, -inf is below every finite value).
  The overall summary's realization rate is only ever formatted for
  display, so there the zero-denominator outcome is abstracted to
  `Option.none` (undefined), which no comparison observes.
* A pandas datetime is abstracted as `RDate`: `ord` is the absolute day
  number (used by `<` comparisons and subtraction `.dt.days`), `year` is
  the calendar year (used by `.dt.year`).
-/

set_option maxHeartbeats 1000000

namespace RCM

/-- Abstraction of a pandas datetime: `ord` is the absolute day index
(drives `<` and day subtraction), `year` the calendar year (`.dt.year`). -/
structure RDate where
  year : Int
  ord : Int
deriving DecidableEq, Repr

/-- One claim-line row, after numeric/date coercion (`clean_data` steps 2–3).
Field names follow the CSV column names used by the script. -/
structure Record where
  CLM_ID : String
  LINE_NUM : Int
  LINE_SBMTD_CHRG_AMT : Option ℚ
  LINE_ALOWD_CHRG_AMT : Option ℚ
  LINE_NCH_PMT_AMT : Option ℚ
  LINE_PRVDR_PMT_AMT : Option ℚ
  LINE_1ST_EXPNS_DT : Option RDate
  NCH_WKLY_PROC_DT : Option RDate
  HCPCS_CD : Option String
  PRVDR_SPCLTY : Option String
deriving DecidableEq, Repr

/-- Pandas `<` on float columns: a comparison with a missing (NaN) operand
is false. -/
def optLt (a b : Option ℚ) : Bool :=
  match a, b with
  | some x, some y => decide (x < y)
  | _, _ => false

/-- Pandas `<` on datetime columns: false when either side is NaT. -/
def optLtDate (a b : Option RDate) : Bool :=
  match a, b with
  | some x, some y => decide (x.ord < y.ord)
  | _, _ => false

/-- A float value as produced by NumPy division: finite, a signed
infinity, or NaN. -/
inductive FVal where
  | fin (x : ℚ)
  | pinf
  | ninf
  | nan
deriving DecidableEq, Repr

/-- IEEE `<` on such values: every comparison against NaN is false,
`-inf` is below and `+inf` above every finite value. -/
def FVal.blt : FVal → FVal → Bool
  | .nan, _ => false
  | _, .nan => false
  | .ninf, .ninf => false
  | .ninf, _ => true
  | _, .ninf => false
  | .pinf, _ => false
  | .fin _, .pinf => true
  | .fin x, .fin y => decide (x < y)

/-- NumPy float division of finite operands: `p / 0` is NaN when `p = 0`
and a signed infinity otherwise (with a suppressed warning, not an
error). -/
def fdiv (p a : ℚ) : FVal :=
  if a = 0 then
    if p = 0 then .nan else if 0 < p then .pinf else .ninf
  else .fin (p / a)

/-- Step 4 of `clean_data` (line 80):
`FIN_LOGIC_VIOLATION = (SBMTD < ALOWD) | (ALOWD < NCH_PMT) | (NCH_PMT < PRVDR_PMT)`. -/
def FIN_LOGIC_VIOLATION (r : Record) : Bool :=
  optLt r.LINE_SBMTD_CHRG_AMT r.LINE_ALOWD_CHRG_AMT ||
  optLt r.LINE_ALOWD_CHRG_AMT r.LINE_NCH_PMT_AMT ||
  optLt r.LINE_NCH_PMT_AMT r.LINE_PRVDR_PMT_AMT

/-- Step 5 of `clean_data` (line 90):
`DATE_LOGIC_VIOLATION = NCH_WKLY_PROC_DT < LINE_1ST_EXPNS_DT`. -/
def DATE_LOGIC_VIOLATION (r : Record) : Bool :=
  optLtDate r.NCH_WKLY_PROC_DT r.LINE_1ST_EXPNS_DT

/-- Step 6 of `clean_data` (line 95): `SERVICE_YEAR = LINE_1ST_EXPNS_DT.dt.year`
(missing when the date is NaT, so the `== 2022` filter rejects it). -/
def SERVICE_YEAR (r : Record) : Option Int :=
  r.LINE_1ST_EXPNS_DT.map (·.year)

/-- Steps 6–7 of `clean_data` (lines 94–100): keep rows with service year 2022,
then drop rows with `FIN_LOGIC_VIOLATION == True`.  Date-logic violations are
computed but play no role in the filtering. -/
def cleanData (df : List Record) : List Record :=
  let df2022 := df.filter (fun r => SERVICE_YEAR r == some 2022)
  df2022.filter (fun r => FIN_LOGIC_VIOLATION r == false)

/-- Line 113 of `calculate_metrics`: `(NCH_WKLY_PROC_DT - LINE_1ST_EXPNS_DT).dt.days`
(missing when either date is NaT). -/
def PROCESSING_DELAY_DAYS (r : Record) : Option Int :=
  match r.NCH_WKLY_PROC_DT, r.LINE_1ST_EXPNS_DT with
  | some b, some a => some (b.ord - a.ord)
  | _, _ => none

/-- Line 118 of `calculate_metrics`: `ALOWD - NCH_PMT` (NaN-propagating). -/
def UNDERPAYMENT_AMT (r : Record) : Option ℚ :=
  match r.LINE_ALOWD_CHRG_AMT, r.LINE_NCH_PMT_AMT with
  | some a, some p => some (a - p)
  | _, _ => none

/-- Line 123 of `calculate_metrics`: `NCH_PMT / ALOWD` as a float column;
a missing operand gives NaN, a zero denominator NaN or a signed
infinity. -/
def REALIZATION_RATE (r : Record) : FVal :=
  match r.LINE_NCH_PMT_AMT, r.LINE_ALOWD_CHRG_AMT with
  | some p, some a => fdiv p a
  | _, _ => .nan

/-- Line 128 of `calculate_metrics`: `NCH_PMT == 0` (false on NaN). -/
def ZERO_PAID_FLAG (r : Record) : Bool :=
  match r.LINE_NCH_PMT_AMT with
  | some p => decide (p = 0)
  | none => false

/-- Line 129 of `calculate_metrics`: `(NCH_PMT > 0) & (NCH_PMT < ALOWD)`. -/
def PARTIAL_PAID_FLAG (r : Record) : Bool :=
  (match r.LINE_NCH_PMT_AMT with
   | some p => decide (0 < p)
   | none => false) &&
  optLt r.LINE_NCH_PMT_AMT r.LINE_ALOWD_CHRG_AMT

/-- NumPy `np.isclose(a, b, rtol, atol) = |a - b| ≤ atol + rtol * |b|`
(for finite arguments; false when either argument is NaN). -/
def isclose (a b rtol atol : ℚ) : Bool :=
  decide (|a - b| ≤ atol + rtol * |b|)

/-- Line 133 of `calculate_metrics`: `np.isclose(NCH_PMT, ALOWD, atol=1)`.
NumPy's default relative tolerance `rtol = 1e-05` is NOT overridden by
passing `atol`, so the effective tolerance is `1 + |ALOWD| / 100000`. -/
def FULLY_PAID_FLAG (r : Record) : Bool :=
  match r.LINE_NCH_PMT_AMT, r.LINE_ALOWD_CHRG_AMT with
  | some p, some a => isclose p a (1 / 100000) 1
  | _, _ => false

/-- How many of the three payment-status flags are raised on a record. -/
def paymentFlagCount (r : Record) : Nat :=
  (ZERO_PAID_FLAG r).toNat + (PARTIAL_PAID_FLAG r).toNat +
    (FULLY_PAID_FLAG r).toNat

/-- Pandas column sum with `skipna=True`: missing entries are skipped,
the empty sum is 0. -/
def sumOpt (l : List (Option ℚ)) : ℚ :=
  (l.filterMap id).sum

/-- The `results['overall']` summary record (`calculate_metrics` lines 142–151).
Option-valued entries are the ones that a zero denominator turns into NaN. -/
structure Overall where
  total_claims : Nat
  total_revenue : ℚ
  total_paid : ℚ
  total_leakage : ℚ
  realization_rate : Option ℚ
  zero_paid_pct : Option ℚ
  part_paid_pct : Option ℚ
  avg_delay : Option ℚ
deriving Repr

/-- Lines 142–151 of `calculate_metrics` over the clean dataset.  The stored
realization rate is `100 * sum(paid) / sum(allowed)` — a percentage. -/
def calculateMetrics (df : List Record) : Overall :=
  let revenue := sumOpt (df.map (·.LINE_ALOWD_CHRG_AMT))
  let paid := sumOpt (df.map (·.LINE_NCH_PMT_AMT))
  let delays := df.filterMap PROCESSING_DELAY_DAYS
  { total_claims := df.length
    total_revenue := revenue
    total_paid := paid
    total_leakage := sumOpt (df.map UNDERPAYMENT_AMT)
    realization_rate :=
      if revenue = 0 then none else some (100 * paid / revenue)
    zero_paid_pct :=
      if df.length = 0 then none
      else some (100 * (df.countP ZERO_PAID_FLAG : ℚ) / df.length)
    part_paid_pct :=
      if df.length = 0 then none
      else some (100 * (df.countP PARTIAL_PAID_FLAG : ℚ) / df.length)
    avg_delay :=
      if delays.length = 0 then none
      else some ((delays.map (Int.cast : Int → ℚ)).sum / delays.length) }

/-- The distinct keys of a grouping column; rows whose key is missing
contribute no key (pandas `groupby` default `dropna=True` discards NaN
group keys).  Key order is irrelevant downstream: the procedure table is
re-sorted by underpayment and the claims under study are order-insensitive
at this stage. -/
def groupKeys (key : Record → Option String) (df : List Record) : List String :=
  (df.filterMap key).dedup

/-- The rows of `df` belonging to group `k` of the HCPCS grouping. -/
def hcpcsGroup (df : List Record) (k : String) : List Record :=
  df.filter (fun r => r.HCPCS_CD == some k)

/-- One row of the `hcpcs_summary` table (`analyze_hcpcs` lines 161–177). -/
structure HRow where
  HCPCS_CD : String
  services : Nat
  allowed_amt : ℚ
  paid_amt : ℚ
  underpayment_amt : ℚ
  total_delays : ℚ
  realization_rate : FVal
deriving DecidableEq, Repr

/-- Aggregation of one HCPCS group (`analyze_hcpcs` lines 161–177):
counts and `skipna` sums, plus `realization_rate = paid_amt / allowed_amt`
as a float quotient (NaN or a signed infinity on a zero denominator). -/
def mkHRow (df : List Record) (k : String) : HRow :=
  let g := hcpcsGroup df k
  let allowed := sumOpt (g.map (·.LINE_ALOWD_CHRG_AMT))
  let paid := sumOpt (g.map (·.LINE_NCH_PMT_AMT))
  { HCPCS_CD := k
    services := g.length
    allowed_amt := allowed
    paid_amt := paid
    underpayment_amt := sumOpt (g.map UNDERPAYMENT_AMT)
    total_delays :=
      ((g.filterMap PROCESSING_DELAY_DAYS).map (Int.cast : Int → ℚ)).sum
    realization_rate := fdiv paid allowed }

/-- Lines 161–180 of `analyze_hcpcs`: group by HCPCS code (missing codes are
dropped by `groupby`), aggregate, then sort descending by summed
underpayment (`sort_values(..., ascending=False)`). -/
def analyzeHcpcs (df : List Record) : List HRow :=
  ((groupKeys (·.HCPCS_CD) df).map (mkHRow df)).mergeSort
    (fun a b => decide (b.underpayment_amt ≤ a.underpayment_amt))

/-- Running sums of a list starting from `acc` (pandas `cumsum`). -/
def cumsumFrom (acc : ℚ) : List ℚ → List ℚ
  | [] => []
  | x :: xs => (acc + x) :: cumsumFrom (acc + x) xs

/-- Lines 181–184 of `analyze_hcpcs`:
`cum_underpayment_pct = underpayment_amt.cumsum() / underpayment_amt.sum()`.
When the grand total is 0 every entry of the column is a non-finite float
(NaN for the all-zero clean case), modelled as undefined. -/
def cum_underpayment_pct (t : List HRow) : List (Option ℚ) :=
  let vals := t.map (·.underpayment_amt)
  let tot := vals.sum
  if tot = 0 then vals.map (fun _ => none)
  else (cumsumFrom 0 vals).map (fun c => some (c / tot))

/-- The rows of `df` belonging to group `k` of the specialty grouping. -/
def spcltyGroup (df : List Record) (k : String) : List Record :=
  df.filter (fun r => r.PRVDR_SPCLTY == some k)

/-- One row of the `specialty_summary` table (`analyze_specialty`). -/
structure SRow where
  PRVDR_SPCLTY : String
  allowed_amt : ℚ
  paid_amt : ℚ
  underpayment_amt : ℚ
  realization_rate : FVal
deriving DecidableEq, Repr

/-- Aggregation of one specialty group (`analyze_specialty` lines 200–212). -/
def mkSRow (df : List Record) (k : String) : SRow :=
  let g := spcltyGroup df k
  let allowed := sumOpt (g.map (·.LINE_ALOWD_CHRG_AMT))
  let paid := sumOpt (g.map (·.LINE_NCH_PMT_AMT))
  { PRVDR_SPCLTY := k
    allowed_amt := allowed
    paid_amt := paid
    underpayment_amt := sumOpt (g.map UNDERPAYMENT_AMT)
    realization_rate := fdiv paid allowed }

/-- Lines 200–212 of `analyze_specialty`: group by specialty (missing keys
dropped), aggregate.  No Pareto column. -/
def analyzeSpecialty (df : List Record) : List SRow :=
  (groupKeys (·.PRVDR_SPCLTY) df).map (mkSRow df)

/-- The values of a float column sorted ascending. -/
def sortedQ (l : List ℚ) : List ℚ :=
  l.mergeSort (fun a b => decide (a ≤ b))

/-- Pandas `Series.quantile(0.9)` with the default linear interpolation:
with the `n` values sorted ascending as `s`, `h = 0.9 * (n - 1)`,
`k = ⌊h⌋`, `g = h - k`, the quantile is `s[k] + g * (s[k+1] - s[k])`.
Undefined (NaN) on an empty series. -/
def quantile09 (l : List ℚ) : Option ℚ :=
  if l = [] then none
  else
    let s := sortedQ l
    let m := 9 * (l.length - 1)
    let k := m / 10
    let g : ℚ := (m % 10 : ℕ) / 10
    some (s.getD k 0 + g * (s.getD (k + 1) 0 - s.getD k 0))

/-- Lines 224–227 of `identify_risks`:
`HIGH_RISK_FLAG = (underpayment_amt > underpayment_amt.quantile(0.9)) |
(realization_rate < 0.9)`; the quantile comparison is false on an empty
(NaN) quantile, and the rate comparison follows the IEEE order, so a NaN
or `+inf` rate is not below 0.9 but a `-inf` rate is. -/
def HIGH_RISK_FLAG (t : List HRow) (r : HRow) : Bool :=
  (match quantile09 (t.map (·.underpayment_amt)) with
   | some q => decide (q < r.underpayment_amt)
   | none => false) ||
  FVal.blt r.realization_rate (.fin (9 / 10))

/-- Line 229 of `identify_risks`: `high_risk = hcpcs_summary[HIGH_RISK_FLAG]` —
the flagged rows, in the order of the input table. -/
def identifyRisks (t : List HRow) : List HRow :=
  t.filter (HIGH_RISK_FLAG t)

/-- The financial-logic violation condition as the spec words it:
submitted < allowed, or allowed < paid-to-plan, or paid-to-plan <
paid-to-provider, a comparison with a missing operand being false. -/
def specFinViolation (r : Record) : Prop :=
  (∃ s a, r.LINE_SBMTD_CHRG_AMT = some s ∧ r.LINE_ALOWD_CHRG_AMT = some a ∧ s < a) ∨
  (∃ a p, r.LINE_ALOWD_CHRG_AMT = some a ∧ r.LINE_NCH_PMT_AMT = some p ∧ a < p) ∨
  (∃ p q, r.LINE_NCH_PMT_AMT = some p ∧ r.LINE_PRVDR_PMT_AMT = some q ∧ p < q)

/-- A well-behaved 2022 record used to instantiate `C2_financial_chain`. -/
def w2rec : Record :=
  { CLM_ID := "c1", LINE_NUM := 1
    LINE_SBMTD_CHRG_AMT := some 100, LINE_ALOWD_CHRG_AMT := some 80
    LINE_NCH_PMT_AMT := some 60, LINE_PRVDR_PMT_AMT := some 50
    LINE_1ST_EXPNS_DT := some ⟨2022, 19000⟩, NCH_WKLY_PROC_DT := some ⟨2022, 19010⟩
    HCPCS_CD := some "99213", PRVDR_SPCLTY := some "01" }

/-- The boundary-overlap condition exactly as the claim words it:
paid-to-plan < allowed and paid-to-plan within 1 currency unit of allowed. -/
def overlapClaimCond (r : Record) : Prop :=
  ∃ p a, r.LINE_NCH_PMT_AMT = some p ∧ r.LINE_ALOWD_CHRG_AMT = some a ∧
    p < a ∧ |p - a| ≤ 1

/-- A clean 2022 record whose paid amount failed numeric coercion. -/
def c3rec : Record :=
  { CLM_ID := "c3", LINE_NUM := 1
    LINE_SBMTD_CHRG_AMT := some 100, LINE_ALOWD_CHRG_AMT := some 100
    LINE_NCH_PMT_AMT := none, LINE_PRVDR_PMT_AMT := some 0
    LINE_1ST_EXPNS_DT := some ⟨2022, 19000⟩, NCH_WKLY_PROC_DT := some ⟨2022, 19010⟩
    HCPCS_CD := some "99213", PRVDR_SPCLTY := some "01" }

/-- A clean record paid within the tolerance but strictly below allowed:
both partial-paid and fully-paid raise. -/
def w3rec : Record :=
  { CLM_ID := "c3w", LINE_NUM := 1
    LINE_SBMTD_CHRG_AMT := some 101, LINE_ALOWD_CHRG_AMT := some 101
    LINE_NCH_PMT_AMT := some 100, LINE_PRVDR_PMT_AMT := some 0
    LINE_1ST_EXPNS_DT := some ⟨2022, 19000⟩, NCH_WKLY_PROC_DT := some ⟨2022, 19010⟩
    HCPCS_CD := some "99213", PRVDR_SPCLTY := some "01" }

/-- A clean 2022 record with allowed 100 and paid 50. -/
def c4rec : Record :=
  { CLM_ID := "c4", LINE_NUM := 1
    LINE_SBMTD_CHRG_AMT := some 100, LINE_ALOWD_CHRG_AMT := some 100
    LINE_NCH_PMT_AMT := some 50, LINE_PRVDR_PMT_AMT := some 0
    LINE_1ST_EXPNS_DT := some ⟨2022, 19000⟩, NCH_WKLY_PROC_DT := some ⟨2022, 19010⟩
    HCPCS_CD := some "99213", PRVDR_SPCLTY := some "01" }

/-- A clean 2022 record fully paid: zero underpayment. -/
def c5rec : Record :=
  { CLM_ID := "c5", LINE_NUM := 1
    LINE_SBMTD_CHRG_AMT := some 100, LINE_ALOWD_CHRG_AMT := some 100
    LINE_NCH_PMT_AMT := some 100, LINE_PRVDR_PMT_AMT := some 0
    LINE_1ST_EXPNS_DT := some ⟨2022, 19000⟩, NCH_WKLY_PROC_DT := some ⟨2022, 19010⟩
    HCPCS_CD := some "99213", PRVDR_SPCLTY := some "01" }

/-- The high-risk condition as the spec words it: summed underpayment
strictly exceeds the 90th-percentile value of the underpayment column, or
the realization rate is below 0.9 — a finite rate `< 0.9` or the `-inf`
rate arising from a negative paid sum over a zero allowed sum; a NaN
(missing) rate never satisfies the clause, nor does `+inf`. -/
def specHighRisk (t : List HRow) (r : HRow) : Prop :=
  (∃ q, quantile09 (t.map (·.underpayment_amt)) = some q ∧
    q < r.underpayment_amt) ∨
  (r.realization_rate = .ninf ∨
    ∃ x, r.realization_rate = .fin x ∧ x < 9 / 10)

/-- The spec's own scenario record: submitted 80 < allowed 100, a
financial-logic violation, so the 2022 temporal slice is non-empty but the
clean set is empty. -/
def c7rec : Record :=
  { CLM_ID := "c7", LINE_NUM := 1
    LINE_SBMTD_CHRG_AMT := some 80, LINE_ALOWD_CHRG_AMT := some 100
    LINE_NCH_PMT_AMT := some 50, LINE_PRVDR_PMT_AMT := some 50
    LINE_1ST_EXPNS_DT := some ⟨2022, 19000⟩, NCH_WKLY_PROC_DT := some ⟨2022, 19010⟩
    HCPCS_CD := some "99213", PRVDR_SPCLTY := some "01" }

/-- A clean 2022 record whose payment differs from the allowed amount by
3 currency units, within the relative part of the `np.isclose` tolerance. -/
def c8rec : Record :=
  { CLM_ID := "c8", LINE_NUM := 1
    LINE_SBMTD_CHRG_AMT := some 200000, LINE_ALOWD_CHRG_AMT := some 200000
    LINE_NCH_PMT_AMT := some 199997, LINE_PRVDR_PMT_AMT := some 0
    LINE_1ST_EXPNS_DT := some ⟨2022, 19000⟩, NCH_WKLY_PROC_DT := some ⟨2022, 19010⟩
    HCPCS_CD := some "99213", PRVDR_SPCLTY := some "01" }

/-- Aggregate rows used to instantiate `C9_flag_monotone`. -/
def w9a : HRow :=
  { HCPCS_CD := "A", services := 1, allowed_amt := 100, paid_amt := 90
    underpayment_amt := 10, total_delays := 0, realization_rate := .fin 1 }

/-- Aggregate rows used to instantiate `C9_flag_monotone`. -/
def w9b : HRow :=
  { HCPCS_CD := "B", services := 1, allowed_amt := 50, paid_amt := 50
    underpayment_amt := 0, total_delays := 0, realization_rate := .fin 1 }

/-- A clean 2022 record with both grouping keys present
(underpayment 10). -/
def c10a : Record :=
  { CLM_ID := "c10a", LINE_NUM := 1
    LINE_SBMTD_CHRG_AMT := some 100, LINE_ALOWD_CHRG_AMT := some 100
    LINE_NCH_PMT_AMT := some 90, LINE_PRVDR_PMT_AMT := some 0
    LINE_1ST_EXPNS_DT := some ⟨2022, 19000⟩, NCH_WKLY_PROC_DT := some ⟨2022, 19010⟩
    HCPCS_CD := some "A", PRVDR_SPCLTY := some "01" }

/-- A clean 2022 record whose grouping keys are both missing
(underpayment 40). -/
def c10b : Record :=
  { CLM_ID := "c10b", LINE_NUM := 1
    LINE_SBMTD_CHRG_AMT := some 100, LINE_ALOWD_CHRG_AMT := some 100
    LINE_NCH_PMT_AMT := some 60, LINE_PRVDR_PMT_AMT := some 0
    LINE_1ST_EXPNS_DT := some ⟨2022, 19000⟩, NCH_WKLY_PROC_DT := some ⟨2022, 19010⟩
    HCPCS_CD := none, PRVDR_SPCLTY := none }

/-! ## C1 — membership in the clean dataset -/

/-- C1: a record is in the clean dataset iff it occurs in the input, its
service year (derived from the first-expense date) is 2022, and its
financial-logic violation flag is false; the date-logic violation flag is
irrelevant, so a record whose only violation is a date-logic one is
retained. -/
theorem C1_clean_membership (df : List Record) (r : Record) :
    r ∈ cleanData df ↔
      r ∈ df ∧ SERVICE_YEAR r = some 2022 ∧ FIN_LOGIC_VIOLATION r = false := by
  simp [cleanData, List.mem_filter]
  tauto

/-! ## C2 — financial chain invariant on clean records -/

theorem optLt_eq_true_iff (a b : Option ℚ) :
    optLt a b = true ↔ ∃ x y, a = some x ∧ b = some y ∧ x < y := by
  cases a <;> cases b <;> simp [optLt]

theorem finViolation_iff_spec (r : Record) :
    FIN_LOGIC_VIOLATION r = true ↔ specFinViolation r := by
  rcases r with ⟨c, n, s, a, p, pr, d1, d2, h, sp⟩
  cases s <;> cases a <;> cases p <;> cases pr <;>
    simp [FIN_LOGIC_VIOLATION, optLt, specFinViolation, or_assoc]

/-- C2: the violation flag agrees with the spec's condition, and on every
clean record whose four financial amounts are all present the chain
submitted ≥ allowed ≥ paid-to-plan ≥ paid-to-provider holds. -/
theorem C2_financial_chain (df : List Record) (r : Record)
    (hmem : r ∈ cleanData df) (s a p q : ℚ)
    (hs : r.LINE_SBMTD_CHRG_AMT = some s) (ha : r.LINE_ALOWD_CHRG_AMT = some a)
    (hp : r.LINE_NCH_PMT_AMT = some p) (hq : r.LINE_PRVDR_PMT_AMT = some q) :
    (a ≤ s ∧ p ≤ a ∧ q ≤ p) ∧
      (∀ r' : Record, FIN_LOGIC_VIOLATION r' = true ↔ specFinViolation r') := by
  have hfin : FIN_LOGIC_VIOLATION r = false :=
    ((C1_clean_membership df r).mp hmem).2.2
  rw [FIN_LOGIC_VIOLATION] at hfin
  simp only [optLt, hs, ha, hp, hq, Bool.or_eq_false_iff, decide_eq_false_iff_not,
    not_lt] at hfin
  exact ⟨⟨hfin.1.1, hfin.1.2, hfin.2⟩, finViolation_iff_spec⟩

theorem C2_financial_chain_witness :
    (80 : ℚ) ≤ 100 ∧ (60 : ℚ) ≤ 80 ∧ (50 : ℚ) ≤ 60 :=
  (C2_financial_chain [w2rec] w2rec (by decide) 100 80 60 50 rfl rfl rfl rfl).1

/-! ## C3 — payment-status classification -/

/-- C3 (counterexample): the claim — every clean record has exactly one
payment flag except in the documented overlap, and never zero flags — is
false: a clean record with a missing paid amount has zero flags. -/
theorem C3_claim_counterexample :
    ¬ (∀ (df : List Record) (r : Record), r ∈ cleanData df →
        (overlapClaimCond r ∨ paymentFlagCount r = 1) ∧
          1 ≤ paymentFlagCount r) := by
  intro h
  have h2 := (h [c3rec] c3rec (by decide)).2
  have h0 : paymentFlagCount c3rec = 0 := by decide
  rw [h0] at h2
  exact absurd h2 (by decide)

theorem zero_paid_excludes_part_paid (r : Record) :
    ZERO_PAID_FLAG r = true → PARTIAL_PAID_FLAG r = false := by
  cases hn : r.LINE_NCH_PMT_AMT with
  | none => intro _; simp [PARTIAL_PAID_FLAG, hn]
  | some p =>
    intro h
    have hp0 : p = 0 := by simpa [ZERO_PAID_FLAG, hn] using h
    simp [PARTIAL_PAID_FLAG, hn, hp0]

theorem paymentFlagCount_le_two (r : Record) : paymentFlagCount r ≤ 2 := by
  unfold paymentFlagCount
  cases hz : ZERO_PAID_FLAG r
  · cases hq : PARTIAL_PAID_FLAG r <;> cases hf : FULLY_PAID_FLAG r <;> simp
  · rw [zero_paid_excludes_part_paid r hz]
    cases hf : FULLY_PAID_FLAG r <;> simp

/-- Characterization of the number of raised flags for present amounts
`p ≤ a` (the order guaranteed on clean records). -/
theorem flag_count_char (p a : ℚ) (hpa : p ≤ a) :
    ((decide (p = 0)).toNat + (decide (0 < p) && decide (p < a)).toNat +
        (decide (|p - a| ≤ 1 + 1 / 100000 * |a|)).toNat = 2 ↔
      0 ≤ p ∧ a - p ≤ 1 + |a| / 100000 ∧ (p < a ∨ p = 0)) ∧
    ((decide (p = 0)).toNat + (decide (0 < p) && decide (p < a)).toNat +
        (decide (|p - a| ≤ 1 + 1 / 100000 * |a|)).toNat = 0 ↔
      p < 0 ∧ 1 + |a| / 100000 < a - p) := by
  have habs : |p - a| = a - p := by
    rw [abs_sub_comm, abs_of_nonneg (by linarith)]
  have hdiv : (1 : ℚ) / 100000 * |a| = |a| / 100000 := by ring
  have htolnn : (0 : ℚ) ≤ |a| / 100000 := by positivity
  rw [habs, hdiv]
  rcases hA : decide (p = 0) <;> rcases hB1 : decide (0 < p) <;>
    rcases hB2 : decide (p < a) <;>
    rcases hC : decide (a - p ≤ 1 + |a| / 100000) <;>
    simp only [decide_eq_true_eq, decide_eq_false_iff_not] at hA hB1 hB2 hC <;>
    simp only [hA, hB1, hB2, hC, decide_eq_true_eq, decide_eq_false_iff_not,
      Bool.false_and, Bool.true_and, Bool.and_false,
      Bool.and_true, Bool.and_self, Bool.toNat_true, Bool.toNat_false] <;>
    constructor <;> norm_num
  all_goals first
    | (exfalso; linarith)
    | linarith
    | (exact lt_of_le_of_ne (not_lt.mp hB1) hA)
    | (exact ⟨lt_of_le_of_ne (not_lt.mp hB1) hA, by linarith⟩)
    | (exact ⟨by linarith, by linarith⟩)
    | (refine ⟨by linarith, by linarith, ?_⟩
       first
         | exact Or.inl (by linarith)
         | exact Or.inr (by linarith))
    | (rintro ⟨h1, h2, h3 | h3⟩ <;> linarith)
    | (rintro ⟨h1, h2⟩ <;> linarith)
    | (intro h1; linarith)

/-- C3 (amended): on every clean record at most two payment flags are
raised; when paid-to-plan `p` and allowed `a` are both present, exactly two
are raised iff `0 ≤ p`, `a - p ≤ 1 + |a|/100000` (the `np.isclose`
tolerance, which includes the default relative term) and (`p < a` or
`p = 0`), and zero are raised iff `p < 0` and `a - p` exceeds that
tolerance; when paid-to-plan or allowed is missing, partial-paid and
fully-paid are false and zero-paid holds iff paid-to-plan is present and
equal to 0. -/
theorem C3_payment_flags_amended (df : List Record) (r : Record)
    (hmem : r ∈ cleanData df) :
    paymentFlagCount r ≤ 2 ∧
    (∀ p a : ℚ, r.LINE_NCH_PMT_AMT = some p → r.LINE_ALOWD_CHRG_AMT = some a →
      (paymentFlagCount r = 2 ↔
        0 ≤ p ∧ a - p ≤ 1 + |a| / 100000 ∧ (p < a ∨ p = 0)) ∧
      (paymentFlagCount r = 0 ↔ p < 0 ∧ 1 + |a| / 100000 < a - p)) ∧
    ((r.LINE_NCH_PMT_AMT = none ∨ r.LINE_ALOWD_CHRG_AMT = none) →
      PARTIAL_PAID_FLAG r = false ∧ FULLY_PAID_FLAG r = false ∧
        (ZERO_PAID_FLAG r = true ↔ r.LINE_NCH_PMT_AMT = some 0)) := by
  refine ⟨paymentFlagCount_le_two r, ?_, ?_⟩
  · intro p a hp ha
    have hfin : FIN_LOGIC_VIOLATION r = false :=
      ((C1_clean_membership df r).mp hmem).2.2
    rw [FIN_LOGIC_VIOLATION] at hfin
    have hpa : p ≤ a := by
      have h2 : optLt r.LINE_ALOWD_CHRG_AMT r.LINE_NCH_PMT_AMT = false := by
        rcases Bool.or_eq_false_iff.mp hfin with ⟨h12, -⟩
        exact (Bool.or_eq_false_iff.mp h12).2
      rw [ha, hp] at h2
      simpa [optLt, not_lt] using h2
    have hcount : paymentFlagCount r =
        (decide (p = 0)).toNat + (decide (0 < p) && decide (p < a)).toNat +
          (decide (|p - a| ≤ 1 + 1 / 100000 * |a|)).toNat := by
      unfold paymentFlagCount ZERO_PAID_FLAG PARTIAL_PAID_FLAG FULLY_PAID_FLAG
      rw [hp, ha]
      simp [optLt, isclose]
    rw [hcount]
    exact flag_count_char p a hpa
  · rintro (hn | hn)
    · simp [PARTIAL_PAID_FLAG, FULLY_PAID_FLAG, ZERO_PAID_FLAG, optLt, hn]
    · cases hm : r.LINE_NCH_PMT_AMT with
      | none => simp [PARTIAL_PAID_FLAG, FULLY_PAID_FLAG, ZERO_PAID_FLAG, optLt, hn, hm]
      | some p => simp [PARTIAL_PAID_FLAG, FULLY_PAID_FLAG, ZERO_PAID_FLAG, optLt, hn, hm]

theorem C3_payment_flags_amended_witness : paymentFlagCount w3rec = 2 :=
  ((C3_payment_flags_amended [w3rec] w3rec (by decide)).2.1 100 101
      rfl rfl).1.mpr
    ⟨by norm_num, by rw [abs_of_nonneg (by norm_num)]; norm_num,
      Or.inl (by norm_num)⟩

/-! ## C4 — overall realization rate -/

/-- C4 (counterexample): on a one-record clean dataset with paid 50 and
allowed 100, the summary's realization rate is 50 (a percentage), not the
ratio of sums 1/2 the claim states. -/
theorem C4_claim_counterexample :
    (calculateMetrics (cleanData [c4rec])).realization_rate = some 50 ∧
    sumOpt ((cleanData [c4rec]).map (·.LINE_NCH_PMT_AMT)) /
        sumOpt ((cleanData [c4rec]).map (·.LINE_ALOWD_CHRG_AMT)) = 1 / 2 ∧
    (50 : ℚ) ≠ 1 / 2 := by
  have hclean : cleanData [c4rec] = [c4rec] := by decide
  refine ⟨?_, ?_, by norm_num⟩ <;> rw [hclean] <;>
    norm_num [calculateMetrics, sumOpt, c4rec, List.filterMap_cons, id_eq]

/-- C4 (amended): the summary realization rate is `100 ×` the ratio of
sums (total paid over total allowed, a percentage, not a mean of
per-record ratios), and it is undefined (NaN, not an error) exactly when
the total allowed amount is 0. -/
theorem C4_realization_amended (df : List Record) :
    ((calculateMetrics df).realization_rate = none ↔
      sumOpt (df.map (·.LINE_ALOWD_CHRG_AMT)) = 0) ∧
    (sumOpt (df.map (·.LINE_ALOWD_CHRG_AMT)) ≠ 0 →
      (calculateMetrics df).realization_rate =
        some (100 * sumOpt (df.map (·.LINE_NCH_PMT_AMT)) /
          sumOpt (df.map (·.LINE_ALOWD_CHRG_AMT)))) := by
  constructor
  · by_cases h : sumOpt (df.map (·.LINE_ALOWD_CHRG_AMT)) = 0 <;>
      simp [calculateMetrics, h]
  · intro h
    simp [calculateMetrics, h]

theorem C4_realization_amended_witness :
    (calculateMetrics (cleanData [c4rec])).realization_rate = some 50 := by
  have hclean : cleanData [c4rec] = [c4rec] := by decide
  have hsum : sumOpt ((cleanData [c4rec]).map (·.LINE_ALOWD_CHRG_AMT)) ≠ 0 := by
    rw [hclean]; norm_num [sumOpt, c4rec, List.filterMap_cons, id_eq]
  have h := (C4_realization_amended (cleanData [c4rec])).2 hsum
  rw [h, hclean]
  norm_num [sumOpt, c4rec, List.filterMap_cons, id_eq]

/-! ## C5 — Pareto cumulative column -/

/-- C5 (counterexample): on the non-empty clean dataset `[c5rec]` (one
fully-paid record) the total underpayment is 0, so every entry of the
cumulative-percentage column is undefined (0/0 = NaN); in particular the
final value is not 1. -/
theorem C5_claim_counterexample :
    cleanData [c5rec] ≠ [] ∧
    cum_underpayment_pct (analyzeHcpcs (cleanData [c5rec])) = [none] ∧
    (cum_underpayment_pct (analyzeHcpcs (cleanData [c5rec]))).getLast? ≠
      some (some 1) := by
  have hclean : cleanData [c5rec] = [c5rec] := by decide
  have hkeys : groupKeys (·.HCPCS_CD) [c5rec] = ["99213"] := by decide
  have htbl : analyzeHcpcs [c5rec] = [mkHRow [c5rec] "99213"] := by
    rw [analyzeHcpcs, hkeys]
    simp
  have hund : (mkHRow [c5rec] "99213").underpayment_amt = 0 := by
    norm_num [mkHRow, hcpcsGroup, sumOpt, UNDERPAYMENT_AMT, c5rec,
      List.filterMap_cons, id_eq, List.filter]
  have hcol : cum_underpayment_pct (analyzeHcpcs (cleanData [c5rec])) = [none] := by
    rw [hclean, htbl, cum_underpayment_pct]
    simp [hund]
  refine ⟨by rw [hclean]; simp, hcol, by rw [hcol]; simp⟩

theorem cumsumFrom_nil (acc : ℚ) : cumsumFrom acc [] = [] := rfl

theorem cumsumFrom_cons (acc x : ℚ) (xs : List ℚ) :
    cumsumFrom acc (x :: xs) = (acc + x) :: cumsumFrom (acc + x) xs := rfl

theorem cumsumFrom_getLast (l : List ℚ) (acc : ℚ) (h : l ≠ []) :
    (cumsumFrom acc l).getLast? = some (acc + l.sum) := by
  induction l generalizing acc with
  | nil => exact absurd rfl h
  | cons x xs ih =>
    cases xs with
    | nil => simp [cumsumFrom_cons, cumsumFrom_nil]
    | cons y ys =>
      rw [cumsumFrom_cons, cumsumFrom_cons, List.getLast?_cons_cons,
        ← cumsumFrom_cons, ih (acc + x) (by simp)]
      simp [add_assoc]

theorem cumsumFrom_chain (l : List ℚ) (acc : ℚ) (h : ∀ x ∈ l, 0 ≤ x) :
    List.Chain' (· ≤ ·) (cumsumFrom acc l) := by
  induction l generalizing acc with
  | nil => simp [cumsumFrom]
  | cons x xs ih =>
    cases xs with
    | nil => simp [cumsumFrom_cons, cumsumFrom_nil]
    | cons y ys =>
      rw [cumsumFrom_cons]
      refine List.chain'_cons'.mpr ⟨?_, ?_⟩
      · intro z hz
        rw [cumsumFrom_cons] at hz
        simp at hz
        have hy : 0 ≤ y := h y (by simp)
        rw [← hz]
        linarith
      · exact ih (acc + x) (fun z hz => h z (List.mem_cons_of_mem x hz))

theorem underpayment_nonneg_of_clean (df : List Record) (r : Record)
    (hmem : r ∈ cleanData df) (x : ℚ) (hx : UNDERPAYMENT_AMT r = some x) :
    0 ≤ x := by
  have hfin : FIN_LOGIC_VIOLATION r = false :=
    ((C1_clean_membership df r).mp hmem).2.2
  rw [FIN_LOGIC_VIOLATION] at hfin
  have h2 : optLt r.LINE_ALOWD_CHRG_AMT r.LINE_NCH_PMT_AMT = false := by
    rcases Bool.or_eq_false_iff.mp hfin with ⟨h12, -⟩
    exact (Bool.or_eq_false_iff.mp h12).2
  rw [UNDERPAYMENT_AMT] at hx
  cases ha : r.LINE_ALOWD_CHRG_AMT with
  | none => rw [ha] at hx; cases hx
  | some a =>
    cases hp : r.LINE_NCH_PMT_AMT with
    | none => rw [ha, hp] at hx; cases hx
    | some p =>
      rw [ha, hp] at hx h2
      have hle : p ≤ a := by simpa [optLt, not_lt] using h2
      have : x = a - p := by simpa using hx.symm
      rw [this]
      linarith

theorem hrow_underpayment_nonneg (df : List Record) (row : HRow)
    (hrow : row ∈ analyzeHcpcs (cleanData df)) : 0 ≤ row.underpayment_amt := by
  rw [analyzeHcpcs, List.mem_mergeSort] at hrow
  rcases List.mem_map.mp hrow with ⟨k, -, hk⟩
  rw [← hk]
  show 0 ≤ sumOpt ((hcpcsGroup (cleanData df) k).map UNDERPAYMENT_AMT)
  rw [sumOpt]
  apply List.sum_nonneg
  intro x hx
  rcases List.mem_filterMap.mp hx with ⟨o, ho, hox⟩
  rcases List.mem_map.mp ho with ⟨r, hrg, hro⟩
  have hrc : r ∈ cleanData df := List.mem_of_mem_filter hrg
  exact underpayment_nonneg_of_clean df r hrc x (by rw [hro]; simpa using hox)

/-- C5 (amended): whenever the procedure-code table of a clean dataset has
positive total summed underpayment, every entry of the cumulative column is
defined, the underlying values are non-decreasing, and the final value is
exactly 1; when the total is 0 (e.g. every clean record fully paid) the
whole column is undefined (NaN). -/
theorem C5_pareto_amended (df : List Record)
    (h : 0 < ((analyzeHcpcs (cleanData df)).map (·.underpayment_amt)).sum) :
    (∀ o ∈ cum_underpayment_pct (analyzeHcpcs (cleanData df)), o ≠ none) ∧
    List.Chain' (fun a b : Option ℚ => a.getD 0 ≤ b.getD 0)
      (cum_underpayment_pct (analyzeHcpcs (cleanData df))) ∧
    (cum_underpayment_pct (analyzeHcpcs (cleanData df))).getLast? =
      some (some 1) := by
  set t := analyzeHcpcs (cleanData df) with ht
  set vals := t.map (·.underpayment_amt) with hvals
  have htot : vals.sum ≠ 0 := ne_of_gt h
  have hvnn : ∀ x ∈ vals, 0 ≤ x := by
    intro x hx
    rcases List.mem_map.mp hx with ⟨row, hrow, hrx⟩
    rw [← hrx]
    exact hrow_underpayment_nonneg df row hrow
  have hvne : vals ≠ [] := by
    intro hv
    rw [hv] at h
    simp at h
  have hcol : cum_underpayment_pct t =
      (cumsumFrom 0 vals).map (fun c => some (c / vals.sum)) := by
    rw [cum_underpayment_pct]
    simp only [← hvals, htot, if_false]
  refine ⟨?_, ?_, ?_⟩
  · rw [hcol]
    intro o ho
    rcases List.mem_map.mp ho with ⟨c, -, hc⟩
    rw [← hc]
    simp
  · rw [hcol]
    have hchain : List.Chain' (· ≤ ·) (cumsumFrom 0 vals) :=
      cumsumFrom_chain vals 0 hvnn
    refine List.chain'_map_of_chain' _ ?_ hchain
    intro a b hab
    have hpos : 0 < vals.sum := h
    simpa using div_le_div_of_nonneg_right hab (le_of_lt hpos)
  · rw [hcol, List.getLast?_map, cumsumFrom_getLast vals 0 hvne]
    simp [div_self htot]

theorem C5_pareto_amended_witness :
    (cum_underpayment_pct (analyzeHcpcs (cleanData [c4rec]))).getLast? =
      some (some 1) := by
  have hpos :
      0 < ((analyzeHcpcs (cleanData [c4rec])).map (·.underpayment_amt)).sum := by
    have hclean : cleanData [c4rec] = [c4rec] := by decide
    have hkeys : groupKeys (·.HCPCS_CD) [c4rec] = ["99213"] := by decide
    have htbl : analyzeHcpcs [c4rec] = [mkHRow [c4rec] "99213"] := by
      rw [analyzeHcpcs, hkeys]
      simp
    rw [hclean, htbl]
    norm_num [mkHRow, hcpcsGroup, sumOpt, UNDERPAYMENT_AMT, c4rec,
      List.filterMap_cons, id_eq, List.filter]
  exact (C5_pareto_amended [c4rec] hpos).2.2

/-! ## C6 — high-risk flag and filtered output -/

/-- C6: a row is flagged high-risk exactly under the spec's condition
(a missing realization rate never satisfies the second clause, an empty
table has no percentile and flags nothing through the first), and the
high-risk output is precisely the flagged subset of the table in table
order. -/
theorem C6_high_risk_spec (t : List HRow) (r : HRow) :
    (HIGH_RISK_FLAG t r = true ↔ specHighRisk t r) ∧
    identifyRisks t = t.filter (HIGH_RISK_FLAG t) := by
  refine ⟨?_, rfl⟩
  rw [HIGH_RISK_FLAG, specHighRisk]
  rcases hq : quantile09 (t.map (·.underpayment_amt)) with _ | q <;>
    rcases hr : r.realization_rate with x | _ | _ | _ <;>
    simp [hq, hr, FVal.blt]

/-! ## C7 — behaviour on an empty clean dataset -/

/-- C7: with `[c7rec]` as input the violation exclusion empties the clean
set, yet every pipeline stage still produces a value — the summary is
computed with an undefined (NaN) realization rate, the aggregate and
high-risk tables are empty — and no distinct empty-dataset error exists
anywhere in the model of the code. -/
theorem C7_no_empty_dataset_error :
    cleanData [c7rec] = [] ∧
    (calculateMetrics (cleanData [c7rec])).realization_rate = none ∧
    (calculateMetrics (cleanData [c7rec])).total_leakage = 0 ∧
    analyzeHcpcs (cleanData [c7rec]) = [] ∧
    identifyRisks (analyzeHcpcs (cleanData [c7rec])) = [] := by
  have hclean : cleanData [c7rec] = [] := by decide
  rw [hclean]
  refine ⟨rfl, ?_, ?_, ?_, ?_⟩ <;>
    simp [calculateMetrics, sumOpt, analyzeHcpcs, groupKeys, identifyRisks]

/-! ## C8 — the fully-paid tolerance -/

/-- C8 (counterexample): the clean record `c8rec` (paid 199997, allowed
200000) is marked fully paid although the absolute difference is 3 > 1:
the tolerance is not purely absolute. -/
theorem C8_claim_counterexample :
    c8rec ∈ cleanData [c8rec] ∧
    FULLY_PAID_FLAG c8rec = true ∧
    ¬(|(199997 : ℚ) - 200000| ≤ 1) := by
  refine ⟨by decide, ?_, ?_⟩
  · rw [FULLY_PAID_FLAG]
    show isclose 199997 200000 (1 / 100000) 1 = true
    rw [isclose, decide_eq_true_eq]
    rw [show (199997 : ℚ) - 200000 = -3 by norm_num, abs_neg,
      abs_of_nonneg (by norm_num : (0:ℚ) ≤ 3),
      abs_of_nonneg (by norm_num : (0:ℚ) ≤ 200000)]
    norm_num
  · rw [show (199997 : ℚ) - 200000 = -3 by norm_num, abs_neg,
      abs_of_nonneg (by norm_num : (0:ℚ) ≤ 3)]
    norm_num

/-- C8 (amended): for a record with paid-to-plan `p` and allowed `a` both
present, the fully-paid flag is true iff `|p - a| ≤ 1 + |a| / 100000` —
the `np.isclose` bound with `atol = 1` and the default `rtol = 1e-05`,
which is not a purely absolute 1-unit tolerance. -/
theorem C8_fully_paid_amended (r : Record) (p a : ℚ)
    (hp : r.LINE_NCH_PMT_AMT = some p) (ha : r.LINE_ALOWD_CHRG_AMT = some a) :
    FULLY_PAID_FLAG r = true ↔ |p - a| ≤ 1 + |a| / 100000 := by
  have hdiv : (1 : ℚ) / 100000 * |a| = |a| / 100000 := by ring
  rw [FULLY_PAID_FLAG, hp, ha]
  show isclose p a (1 / 100000) 1 = true ↔ _
  rw [isclose, decide_eq_true_eq, hdiv]

theorem C8_fully_paid_amended_witness : FULLY_PAID_FLAG c8rec = true :=
  (C8_fully_paid_amended c8rec 199997 200000 rfl rfl).mpr
    (by
      rw [show (199997 : ℚ) - 200000 = -3 by norm_num, abs_neg,
        abs_of_nonneg (by norm_num : (0:ℚ) ≤ 3),
        abs_of_nonneg (by norm_num : (0:ℚ) ≤ 200000)]
      norm_num)

/-! ## C9 — monotonicity of the quantile-based risk flag -/

theorem sortedQ_pairwise (l : List ℚ) : (sortedQ l).Pairwise (· ≤ ·) := by
  have h := @List.sorted_mergeSort ℚ (fun a b : ℚ => decide (a ≤ b))
    (by intro a b c h1 h2; simp only [decide_eq_true_eq] at *; exact le_trans h1 h2)
    (by intro a b; rcases le_total a b with h | h <;> simp [h]) l
  exact h.imp (fun hab => by simpa using hab)

theorem sortedQ_perm (l : List ℚ) : List.Perm (sortedQ l) l :=
  List.mergeSort_perm l _

theorem sortedQ_length (l : List ℚ) : (sortedQ l).length = l.length :=
  (sortedQ_perm l).length_eq

theorem getD_eq_getElem' (l : List ℚ) (k : ℕ) (h : k < l.length) :
    l.getD k 0 = l[k] := by
  rw [List.getD_eq_getElem?_getD, List.getElem?_eq_getElem h, Option.getD_some]

/-- In a sorted list, if at least `k + 1` entries satisfy a
downward-closed predicate then the entry at index `k` satisfies it. -/
theorem sorted_getD_of_countP (s : List ℚ) (hs : s.Pairwise (· ≤ ·))
    (p : ℚ → Bool) (hmono : ∀ y z : ℚ, z ≤ y → p y = true → p z = true)
    (k : ℕ) (h : k + 1 ≤ s.countP p) : p (s.getD k 0) = true := by
  induction s generalizing k with
  | nil => simp at h
  | cons a t ih =>
    by_cases hpa : p a = true
    · cases k with
      | zero => simpa using hpa
      | succ k' =>
        rw [List.getD_cons_succ]
        rw [List.countP_cons, if_pos hpa] at h
        exact ih hs.of_cons k' (by omega)
    · have h0 : t.countP p = 0 := by
        rw [List.countP_eq_zero]
        intro y hy hpy
        have hay : a ≤ y := (List.pairwise_cons.mp hs).1 y hy
        exact hpa (hmono y a hay hpy)
      rw [List.countP_cons, h0, if_neg hpa] at h
      omega

/-- In a sorted list, at least `k + 1` entries are `≤` the entry at
index `k`. -/
theorem countP_ge_of_sorted_getD (s : List ℚ) (hs : s.Pairwise (· ≤ ·))
    (k : ℕ) (hk : k < s.length) :
    k + 1 ≤ s.countP (fun y => decide (y ≤ s.getD k 0)) := by
  induction s generalizing k with
  | nil => simp at hk
  | cons a t ih =>
    cases k with
    | zero =>
      rw [List.getD_cons_zero, List.countP_cons, if_pos (by simp)]
      omega
    | succ k' =>
      have hk' : k' < t.length := by simpa using hk
      have hmem : t.getD k' 0 ∈ t := by
        rw [getD_eq_getElem' t k' hk']
        exact List.getElem_mem hk'
      have ha : a ≤ t.getD k' 0 := (List.pairwise_cons.mp hs).1 _ hmem
      rw [List.getD_cons_succ, List.countP_cons, if_pos (by simpa using ha)]
      have := ih hs.of_cons k' hk'
      omega

/-- Unfolding of `quantile09` on a non-empty series. -/
theorem quantile09_eq (l : List ℚ) (h : l ≠ []) :
    quantile09 l = some ((sortedQ l).getD (9 * (l.length - 1) / 10) 0 +
      (((9 * (l.length - 1)) % 10 : ℕ) : ℚ) / 10 *
        ((sortedQ l).getD (9 * (l.length - 1) / 10 + 1) 0 -
          (sortedQ l).getD (9 * (l.length - 1) / 10) 0)) := by
  rw [quantile09, if_neg h]

/-- Raising one entry of the series above a value that already strictly
exceeded the 0.9 quantile keeps the (recomputed) quantile strictly below
the raised value. -/
theorem quantile09_set_lt (S : List ℚ) (i : ℕ) (hi : i < S.length)
    (u u' q : ℚ) (hu : S[i] = u)
    (hq : quantile09 S = some q) (hlt : q < u) (hle : u ≤ u') :
    ∃ q', quantile09 (S.set i u') = some q' ∧ q' < u' := by
  have hnpos : 0 < S.length := Nat.lt_of_le_of_lt (Nat.zero_le i) hi
  have hne : S ≠ [] := List.length_pos.mp hnpos
  have hlen' : (S.set i u').length = S.length := List.length_set S i u'
  have hne' : S.set i u' ≠ [] := List.length_pos.mp (by rw [hlen']; omega)
  obtain ⟨k, hkdef⟩ : ∃ k, k = 9 * (S.length - 1) / 10 := ⟨_, rfl⟩
  obtain ⟨g, hgdef⟩ : ∃ g : ℚ,
      g = (((9 * (S.length - 1)) % 10 : ℕ) : ℚ) / 10 := ⟨_, rfl⟩
  rw [quantile09_eq S hne, Option.some_inj, ← hkdef, ← hgdef] at hq
  refine ⟨(sortedQ (S.set i u')).getD k 0 + g *
      ((sortedQ (S.set i u')).getD (k + 1) 0 -
        (sortedQ (S.set i u')).getD k 0), ?_, ?_⟩
  · rw [quantile09_eq _ hne', hlen', ← hkdef, ← hgdef]
  · have hsp : (sortedQ S).Pairwise (· ≤ ·) := sortedQ_pairwise S
    have hsp' : (sortedQ (S.set i u')).Pairwise (· ≤ ·) := sortedQ_pairwise _
    have hslen : (sortedQ S).length = S.length := sortedQ_length S
    have hslen' : (sortedQ (S.set i u')).length = S.length := by
      rw [sortedQ_length, hlen']
    have hkn : k < S.length := by rw [hkdef]; omega
    have hg0 : 0 ≤ g := by rw [hgdef]; positivity
    have hg1 : g < 1 := by
      rw [hgdef]
      have h10 : (9 * (S.length - 1)) % 10 < 10 := Nat.mod_lt _ (by norm_num)
      have hc : (((9 * (S.length - 1)) % 10 : ℕ) : ℚ) < 10 := by
        exact_mod_cast h10
      linarith
    have hsk_le_q : (sortedQ S).getD k 0 ≤ q := by
      rcases Nat.eq_zero_or_pos ((9 * (S.length - 1)) % 10) with hz | hpos
      · have hgz : g = 0 := by rw [hgdef, hz]; norm_num
        rw [← hq, hgz]
        simp
      · have hk1 : k + 1 < S.length := by rw [hkdef]; omega
        have hadj : (sortedQ S).getD k 0 ≤ (sortedQ S).getD (k + 1) 0 := by
          rw [getD_eq_getElem' _ k (by rw [hslen]; omega),
            getD_eq_getElem' _ (k + 1) (by rw [hslen]; omega)]
          have hpg := List.pairwise_iff_get.mp hsp
            ⟨k, by rw [hslen]; omega⟩ ⟨k + 1, by rw [hslen]; omega⟩
            (by simp [Fin.lt_def])
          simpa [List.get_eq_getElem] using hpg
        have hterm : 0 ≤ g * ((sortedQ S).getD (k + 1) 0 -
            (sortedQ S).getD k 0) := mul_nonneg hg0 (by linarith)
        linarith [hq.ge, hq.le]
    have hsk_lt_u : (sortedQ S).getD k 0 < u := lt_of_le_of_lt hsk_le_q hlt
    have c1 : k + 1 ≤ (sortedQ S).countP
        (fun y => decide (y ≤ (sortedQ S).getD k 0)) :=
      countP_ge_of_sorted_getD _ hsp k (by rw [hslen]; omega)
    have c2 : k + 1 ≤ S.countP (fun y => decide (y < u)) := by
      have hmono : (sortedQ S).countP
            (fun y => decide (y ≤ (sortedQ S).getD k 0)) ≤
          (sortedQ S).countP (fun y => decide (y < u)) := by
        apply List.countP_mono_left
        intro x hx h
        simp only [decide_eq_true_eq] at h ⊢
        exact lt_of_le_of_lt h hsk_lt_u
      have hperm := (sortedQ_perm S).countP_eq (fun y => decide (y < u))
      omega
    have hsplit : S.take i ++ u :: S.drop (i + 1) = S := by
      have h2 : S[i] :: S.drop (i + 1) = S.drop i := List.getElem_cons_drop S i hi
      rw [hu] at h2
      rw [h2]
      exact List.take_append_drop i S
    have hset : S.set i u' = S.take i ++ u' :: S.drop (i + 1) := by
      rw [List.set_eq_take_append_cons_drop, if_pos hi]
    have hc2 : k + 1 ≤ (S.take i).countP (fun y => decide (y < u)) +
        (S.drop (i + 1)).countP (fun y => decide (y < u)) := by
      have h3 := c2
      rw [← hsplit, List.countP_append, List.countP_cons] at h3
      simp only [decide_eq_true_eq, lt_self_iff_false, if_false] at h3
      omega
    have htake_lt : (S.take i).countP (fun y => decide (y < u)) ≤
        (S.take i).countP (fun y => decide (y < u')) := by
      apply List.countP_mono_left
      intro x hx h
      simp only [decide_eq_true_eq] at h ⊢
      linarith
    have hdrop_lt : (S.drop (i + 1)).countP (fun y => decide (y < u)) ≤
        (S.drop (i + 1)).countP (fun y => decide (y < u')) := by
      apply List.countP_mono_left
      intro x hx h
      simp only [decide_eq_true_eq] at h ⊢
      linarith
    have htake_le : (S.take i).countP (fun y => decide (y < u)) ≤
        (S.take i).countP (fun y => decide (y ≤ u')) := by
      apply List.countP_mono_left
      intro x hx h
      simp only [decide_eq_true_eq] at h ⊢
      linarith
    have hdrop_le : (S.drop (i + 1)).countP (fun y => decide (y < u)) ≤
        (S.drop (i + 1)).countP (fun y => decide (y ≤ u')) := by
      apply List.countP_mono_left
      intro x hx h
      simp only [decide_eq_true_eq] at h ⊢
      linarith
    have c3 : k + 1 ≤ (S.set i u').countP (fun y => decide (y < u')) := by
      rw [hset, List.countP_append, List.countP_cons]
      omega
    have c4 : k + 2 ≤ (S.set i u').countP (fun y => decide (y ≤ u')) := by
      rw [hset, List.countP_append, List.countP_cons,
        if_pos (by simp : decide (u' ≤ u') = true)]
      omega
    have c3' : k + 1 ≤ (sortedQ (S.set i u')).countP
        (fun y => decide (y < u')) := by
      rw [(sortedQ_perm (S.set i u')).countP_eq]
      exact c3
    have c4' : k + 2 ≤ (sortedQ (S.set i u')).countP
        (fun y => decide (y ≤ u')) := by
      rw [(sortedQ_perm (S.set i u')).countP_eq]
      exact c4
    have hA : (sortedQ (S.set i u')).getD k 0 < u' := by
      have h5 := sorted_getD_of_countP _ hsp' (fun y => decide (y < u'))
        (by
          intro y z hzy h
          simp only [decide_eq_true_eq] at h ⊢
          linarith) k c3'
      simpa using h5
    have hB : (sortedQ (S.set i u')).getD (k + 1) 0 ≤ u' := by
      have h5 := sorted_getD_of_countP _ hsp' (fun y => decide (y ≤ u'))
        (by
          intro y z hzy h
          simp only [decide_eq_true_eq] at h ⊢
          linarith) (k + 1) c4'
      simpa using h5
    have hident : (sortedQ (S.set i u')).getD k 0 + g *
        ((sortedQ (S.set i u')).getD (k + 1) 0 -
          (sortedQ (S.set i u')).getD k 0) =
        u' + ((1 - g) * ((sortedQ (S.set i u')).getD k 0 - u') +
          g * ((sortedQ (S.set i u')).getD (k + 1) 0 - u')) := by ring
    have t1 : (1 - g) * ((sortedQ (S.set i u')).getD k 0 - u') < 0 :=
      mul_neg_of_pos_of_neg (by linarith) (by linarith)
    have t2 : g * ((sortedQ (S.set i u')).getD (k + 1) 0 - u') ≤ 0 := by
      have h6 := mul_le_mul_of_nonneg_left
        (show (sortedQ (S.set i u')).getD (k + 1) 0 - u' ≤ 0 by linarith) hg0
      rw [mul_zero] at h6
      exact h6
    rw [hident]
    linarith

/-- C9: if a row of the procedure-code aggregate table is flagged because
its summed underpayment strictly exceeds the 90th-percentile threshold,
then raising that row's underpayment (all other rows fixed, the threshold
recomputed over the modified table) still leaves it flagged high-risk. -/
theorem C9_flag_monotone (t : List HRow) (i : ℕ) (hi : i < t.length)
    (q u' : ℚ)
    (hq : quantile09 (t.map (·.underpayment_amt)) = some q)
    (hflag : q < t[i].underpayment_amt)
    (hup : t[i].underpayment_amt ≤ u') :
    HIGH_RISK_FLAG (t.set i { t[i] with underpayment_amt := u' })
      { t[i] with underpayment_amt := u' } = true := by
  have hiS : i < (t.map (·.underpayment_amt)).length := by simpa using hi
  have hSi : (t.map (·.underpayment_amt))[i] = t[i].underpayment_amt := by simp
  obtain ⟨q', hq', hlt'⟩ := quantile09_set_lt (t.map (·.underpayment_amt)) i hiS
    t[i].underpayment_amt u' q hSi hq hflag hup
  have hmap : (t.set i { t[i] with underpayment_amt := u' }).map
      (·.underpayment_amt) = (t.map (·.underpayment_amt)).set i u' := by
    rw [List.map_set]
  rw [HIGH_RISK_FLAG, hmap, hq']
  simp [hlt']

theorem C9_flag_monotone_witness :
    HIGH_RISK_FLAG ([w9a, w9b].set 0 { w9a with underpayment_amt := 20 })
      { w9a with underpayment_amt := 20 } = true := by
  have hsort : sortedQ [(10 : ℚ), 0] = [0, 10] := by
    have hperm : List.Perm (sortedQ [(10 : ℚ), 0]) [0, 10] :=
      (sortedQ_perm [(10 : ℚ), 0]).trans (List.Perm.swap _ _ _)
    have hs1 : List.Sorted (· ≤ ·) (sortedQ [(10 : ℚ), 0]) := sortedQ_pairwise _
    have hs2 : List.Sorted (· ≤ ·) [(0 : ℚ), 10] := by
      norm_num [List.sorted_cons]
    exact List.eq_of_perm_of_sorted hperm hs1 hs2
  have hq : quantile09 ([w9a, w9b].map (·.underpayment_amt)) = some 9 := by
    have hvals : [w9a, w9b].map (·.underpayment_amt) = [(10 : ℚ), 0] := by
      norm_num [w9a, w9b]
    rw [hvals, quantile09_eq [(10 : ℚ), 0] (by simp), hsort]
    norm_num
  have h := C9_flag_monotone [w9a, w9b] 0 (by norm_num) 9 20 hq
    (by norm_num [w9a]) (by norm_num [w9a])
  simpa using h

/-! ## C10 — missing grouping keys are dropped -/

theorem filter_key_isSome (key : Record → Option String) (df : List Record)
    (k : String) :
    (df.filter (fun r => (key r).isSome)).filter (fun r => key r == some k) =
      df.filter (fun r => key r == some k) := by
  rw [List.filter_filter]
  apply List.filter_congr
  intro r _
  cases h : key r <;> simp [h]

theorem filterMap_key_isSome (key : Record → Option String)
    (df : List Record) :
    (df.filter (fun r => (key r).isSome)).filterMap key = df.filterMap key := by
  induction df with
  | nil => rfl
  | cons r t ih =>
    cases hk : key r with
    | none => simp [List.filter_cons, List.filterMap_cons, hk, ih]
    | some k => simp [List.filter_cons, List.filterMap_cons, hk, ih]

/-- C10: records with a missing procedure code (resp. specialty code) play
no part in the corresponding aggregate table — dropping them leaves both
tables unchanged — and consequently the summed underpayment of the
procedure-code table can be strictly below the overall total-leakage
metric, as on the clean dataset `[c10a, c10b]` (10 < 50). -/
theorem C10_missing_keys_dropped :
    (∀ df : List Record,
      analyzeHcpcs (df.filter (fun r => r.HCPCS_CD.isSome)) =
          analyzeHcpcs df ∧
        analyzeSpecialty (df.filter (fun r => r.PRVDR_SPCLTY.isSome)) =
          analyzeSpecialty df) ∧
    ((analyzeHcpcs (cleanData [c10a, c10b])).map (·.underpayment_amt)).sum <
      (calculateMetrics (cleanData [c10a, c10b])).total_leakage := by
  constructor
  · intro df
    constructor
    · rw [analyzeHcpcs, analyzeHcpcs, groupKeys, groupKeys,
        filterMap_key_isSome]
      congr 1
      apply List.map_congr_left
      intro k hk
      rw [mkHRow, mkHRow, hcpcsGroup, hcpcsGroup, filter_key_isSome]
    · rw [analyzeSpecialty, analyzeSpecialty, groupKeys, groupKeys,
        filterMap_key_isSome]
      apply List.map_congr_left
      intro k hk
      rw [mkSRow, mkSRow, spcltyGroup, spcltyGroup, filter_key_isSome]
  · have hclean : cleanData [c10a, c10b] = [c10a, c10b] := by decide
    have hkeys : groupKeys (·.HCPCS_CD) [c10a, c10b] = ["A"] := by decide
    have htbl : analyzeHcpcs [c10a, c10b] = [mkHRow [c10a, c10b] "A"] := by
      rw [analyzeHcpcs, hkeys]
      simp
    rw [hclean, htbl]
    norm_num [mkHRow, hcpcsGroup, sumOpt, UNDERPAYMENT_AMT, calculateMetrics,
      c10a, c10b, List.filterMap_cons, id_eq, List.filter]

end RCM
